import Mathlib

/-!
Verification development for the rare-format detection engine of
`mlchecks/checks/integrity/rare_format_detection.py`.

The Python source is shallowly embedded: pure Python functions become Lean
functions over `List`/`String`/`ℚ`, pandas Series become `List String`,
pandas `value_counts()` becomes `valueCounts`, and fallible Python code
(raising exceptions) returns `Except PyErr`.  Regex substitution actions
inside a `Pattern` are embedded as abstract `String → String` functions
paired with their replacement literal, exactly as each `re.sub(rx, repl, s)`
call is a pure function of `s`.
-/

/-- Exceptions the embedded code can signal.  `indexError` models a Python
`IndexError` from positional indexing.  `mlchecksValueError` models the
`MLChecksValueError` configuration error raised by `rare_format_detection`.
`refinementError` is the error class named by the specification's error
taxonomy; the source never defines nor raises it, the constructor exists so
that statements about it can be written. -/
inductive PyErr where
  | indexError : PyErr
  | refinementError : PyErr
  | mlchecksValueError : PyErr
deriving DecidableEq, Repr

deriving instance DecidableEq for Except

/-- Substring occurrence test on `List Char`, scanning left to right:
embeds Python's `sub in s` membership test. -/
def hasSubAux (pat : List Char) : List Char → Bool
  | [] => pat.isEmpty
  | c :: rest => pat.isPrefixOf (c :: rest) || hasSubAux pat rest

/-- Python's `pat in s` substring containment for strings. -/
def hasSub (s : String) (pat : String) : Bool :=
  hasSubAux pat.data s.data

/-- Distinct elements of a list in first-occurrence order, with an
accumulator of values already seen: embeds the order pandas `unique()`
returns values in. -/
def dedupFirstAux (seen : List String) : List String → List String
  | [] => []
  | v :: rest =>
    if v ∈ seen then dedupFirstAux seen rest
    else v :: dedupFirstAux (v :: seen) rest

/-- Distinct elements in first-occurrence order (pandas `unique()`). -/
def dedupFirst (l : List String) : List String :=
  dedupFirstAux [] l

/-- Number of occurrences of `v` in `col`. -/
def countOcc (col : List String) (v : String) : Nat :=
  (col.filter (fun x => x = v)).length

/-- Insert an entry into a count-descending list, after all entries with a
greater-or-equal count, so that `sortDesc` is a stable descending sort. -/
def insertDesc (e : String × Nat) : List (String × Nat) → List (String × Nat)
  | [] => [e]
  | f :: rest => if e.2 ≤ f.2 then f :: insertDesc e rest else e :: f :: rest

/-- Stable sort by descending count (ties keep first-occurrence order). -/
def sortDesc (l : List (String × Nat)) : List (String × Nat) :=
  l.foldl (fun acc e => insertDesc e acc) []

/-- pandas `col.value_counts()`: the distinct values of `col` paired with
their occurrence counts, in descending-count order, ties in
first-occurrence order. -/
def valueCounts (col : List String) : List (String × Nat) :=
  sortDesc ((dedupFirst col).map (fun v => (v, countOcc col v)))

/-- The `value_counts.drop('', errors='ignore')` step: the ranking with the
empty-string item removed. -/
def nonEmptyEntries (value_counts : List (String × Nat)) : List (String × Nat) :=
  value_counts.filter (fun e => decide (e.1 ≠ ""))

/-- Total of the counts of a ranking slice, as a rational (the Python sums
are divided, so the embedded sums live in `ℚ`). -/
def sumCounts (l : List (String × Nat)) : ℚ :=
  ((l.map (fun e => e.2)).sum : ℕ)

/-- The `for i, (prev_value, curr_value) in enumerate(zip(value_counts[:-1],
value_counts[1:]))` scan: index of the first adjacent pair of counts with
`curr < t * prev`, or `none` when the loop falls through to its `else`. -/
def findDropAux (t : ℚ) (prev : Nat) : List Nat → Option Nat
  | [] => none
  | c :: rest =>
    if (c : ℚ) < t * (prev : ℚ) then some 0
    else (findDropAux t c rest).map (fun i => i + 1)

def findDrop (t : ℚ) : List Nat → Option Nat
  | [] => none
  | c :: rest => findDropAux t c rest

/-- `get_rare_vs_common_values`, the RarityPartitioner.  The argument is the
descending-count frequency ranking (the source computes it from the column
as `col.value_counts()`; `valueCounts` reproduces that step and the caller
below composes the two).  Returns `(ratio, rare values, common values)`,
with `(0, [], [])` embedding the source's `0, None, None` sentinel. -/
def get_rare_vs_common_values (value_counts : List (String × Nat)) (t : ℚ) :
    ℚ × List String × List String :=
  if (nonEmptyEntries value_counts).length ≤ 1 then (0, [], [])
  else
    match findDrop t ((nonEmptyEntries value_counts).map (fun e => e.2)) with
    | none => (0, [], [])
    | some i =>
      (sumCounts ((nonEmptyEntries value_counts).drop (i + 1)) /
          sumCounts ((nonEmptyEntries value_counts).take (i + 1)),
        ((nonEmptyEntries value_counts).drop (i + 1)).map (fun e => e.1),
        ((nonEmptyEntries value_counts).take (i + 1)).map (fun e => e.1))

example :
    get_rare_vs_common_values [("a", 10), ("b", 7), ("c", 1)] (1/4)
      = (1/17, ["c"], ["a", "b"]) := by
  have h1 : nonEmptyEntries [("a", 10), ("b", 7), ("c", 1)]
      = [("a", 10), ("b", 7), ("c", 1)] := by decide
  rw [get_rare_vs_common_values, h1]
  norm_num [findDrop, findDropAux, sumCounts]

example :
    get_rare_vs_common_values [("a", 100), ("", 5), ("b", 1)] (1/20)
      = (1/100, ["b"], ["a"]) := by
  have h1 : nonEmptyEntries [("a", 100), ("", 5), ("b", 1)]
      = [("a", 100), ("b", 1)] := by decide
  rw [get_rare_vs_common_values, h1]
  norm_num [findDrop, findDropAux, sumCounts]

example : valueCounts ["x", "y", "x", "x"] = [("x", 3), ("y", 1)] := by decide

/-- Modelled from the spec: `split_and_keep` from `mlchecks.base.string_utils`
is not under `src/`.  Per spec section 4.3 step 2, the skeleton is split on
the filler literal, keeping each separator occurrence as its own token and
dropping empty segments, so the result alternates literal segments and
filler tokens.  `fuel` bounds the recursion; it is initialised to the string
length, which every step at least consumes one character of whenever `sep`
is non-empty, so the fuel never runs out on the guarded entry point. -/
def splitKeepGo (sep : List Char) : Nat → List Char → List Char → List String
  | _, [], acc => if acc.isEmpty then [] else [(⟨acc.reverse⟩ : String)]
  | 0, rem, acc =>
    (if acc.isEmpty then [] else [(⟨acc.reverse⟩ : String)]) ++ [(⟨rem⟩ : String)]
  | fuel + 1, c :: rest, acc =>
    if sep.isPrefixOf (c :: rest) then
      (if acc.isEmpty then [] else [(⟨acc.reverse⟩ : String)]) ++
        (⟨sep⟩ : String) :: splitKeepGo sep fuel ((c :: rest).drop sep.length) []
    else splitKeepGo sep fuel rest (c :: acc)

/-- Modelled from the spec: tokenize `s` on `sep`, keeping `sep` occurrences
as their own tokens (`split_and_keep` of `mlchecks.base.string_utils`). -/
def splitAndKeep (s : String) (sep : String) : List String :=
  if sep.data.isEmpty then [s] else splitKeepGo sep.data s.data.length s.data []

example : splitAndKeep "XXX@XXX.XXX" "XXX" = ["XXX", "@", "XXX", ".", "XXX"] := by decide

/-- First occurrence of `sep` in a character list: the characters before it
and the characters after it, or `none` when `sep` does not occur. -/
def findOcc (sep : List Char) : List Char → Option (List Char × List Char)
  | [] => if sep.isEmpty then some ([], []) else none
  | c :: rest =>
    if sep.isPrefixOf (c :: rest) then some ([], (c :: rest).drop sep.length)
    else
      match findOcc sep rest with
      | none => none
      | some pr => some (c :: pr.1, pr.2)

/-- Modelled from the spec: the separator walk of `split_and_keep_by_many`
(`mlchecks.base.string_utils`, not under `src/`).  The skeleton's literal
segments are applied in order as split points: each separator's first
occurrence in the remaining characters cuts off the preceding segment (kept
when non-empty) and the separator itself; the remainder after the last
separator is kept when non-empty.  A separator that does not occur ends the
walk with the remainder. -/
def splitByManyGo : List String → List Char → List String
  | [], rem => if rem.isEmpty then [] else [(⟨rem⟩ : String)]
  | sep :: seps, rem =>
    match findOcc sep.data rem with
    | none => if rem.isEmpty then [] else [(⟨rem⟩ : String)]
    | some pr =>
      (if pr.1.isEmpty then [] else [(⟨pr.1⟩ : String)]) ++ sep :: splitByManyGo seps pr.2

/-- Modelled from the spec: `split_and_keep_by_many` from
`mlchecks.base.string_utils`, splitting `s` at every separator of `seps` in
order while keeping the separators as tokens. -/
def splitAndKeepByMany (s : String) (seps : List String) : List String :=
  splitByManyGo seps s.data

example :
    splitAndKeepByMany "foo@gmail.com" ["@", "."]
      = ["foo", "@", "gmail", ".", "com"] := by decide

/-- The generator of `all(split_sample[i] == common_value for split_sample in
split_examples[1:])` in `_refine_formats`: short-circuits to `ok false` on
the first disagreeing sample, and raises `IndexError` when a sample reached
before any disagreement has no position `i`. -/
def agreeAt (i : Nat) (commonValue : String) : List (List String) → Except PyErr Bool
  | [] => Except.ok true
  | sample :: rest =>
    match sample[i]? with
    | none => Except.error PyErr.indexError
    | some v => if v = commonValue then agreeAt i commonValue rest else Except.ok false

/-- The `for i in range(len(example))` loop of `_refine_formats`, walking the
first sample's tokens with their position `i`.  Accessing `splt_fmt[i]` out
of range raises `IndexError`, exactly as the Python indexing does. -/
def refineLoop (spltFmt : List String) (substr : String) (others : List (List String)) :
    Nat → List String → Except PyErr (List String)
  | _, [] => Except.ok []
  | i, cv :: rest =>
    match spltFmt[i]? with
    | none => Except.error PyErr.indexError
    | some tok =>
      if tok = substr then
        match agreeAt i cv others with
        | Except.error e => Except.error e
        | Except.ok true => (refineLoop spltFmt substr others (i + 1) rest).map (fun r => cv :: r)
        | Except.ok false => (refineLoop spltFmt substr others (i + 1) rest).map (fun r => tok :: r)
      else (refineLoop spltFmt substr others (i + 1) rest).map (fun r => tok :: r)

/-- The tokenized skeleton `splt_fmt` of `_refine_formats`: characters in
non-sequence mode, `split_and_keep` segments in sequence mode. -/
def tokenizedFmt (fmt substr : String) (isSeq : Bool) : List String :=
  if isSeq then splitAndKeep fmt substr
  else fmt.data.map (fun c => (⟨[c]⟩ : String))

/-- The tokenized samples `split_examples` of `_refine_formats`: characters
in non-sequence mode; in sequence mode each sample is split by the skeleton's
non-filler segments `splt_fmt_wo_sep`. -/
def tokenizedSamples (fmt substr : String) (samples : List String) (isSeq : Bool) :
    List (List String) :=
  if isSeq then
    samples.map (fun s =>
      splitAndKeepByMany s ((splitAndKeep fmt substr).filter (fun x => x ≠ substr)))
  else samples.map (fun s => s.data.map (fun c => (⟨[c]⟩ : String)))

/-- `_refine_formats(fmt, substr, samples, is_substr_sequence)`: degeneralize
`fmt` by substituting, at each filler position, the literal on which every
sample agrees.  `split_examples[0]` on an empty sample list raises
`IndexError`, as in the Python source. -/
def refine_formats (fmt : String) (substr : String) (samples : List String)
    (is_substr_sequence : Bool) : Except PyErr String :=
  if hasSub fmt substr then
    match tokenizedSamples fmt substr samples is_substr_sequence with
    | [] => Except.error PyErr.indexError
    | firstSample :: others =>
      (refineLoop (tokenizedFmt fmt substr is_substr_sequence) substr others 0 firstSample).map
        (fun toks => String.join toks)
  else Except.ok fmt

example :
    refine_formats "XXX@XXX.XXX" "XXX" ["foo@gmail.com", "bar@gmail.com", "baz@gmail.com"] true
      = Except.ok "XXX@gmail.com" := by decide

example : refine_formats "XXX@XXX.XXX" "XXX" [] true = Except.error PyErr.indexError := by
  decide

example : refine_formats "XX" "X" ["ab", "c"] false = Except.error PyErr.indexError := by
  decide

/-- The `Pattern` class.  Each substituter `(regex, repl)` is embedded as the
pure string action of its `re.sub(regex, repl, ·)` call paired with the
replacement literal `repl`; the optional `ignore` regex is embedded as the
action of `re.sub(ignore, '', ·)`. -/
structure Pattern where
  name : String
  substituters : List ((String → String) × String)
  ignore : Option (String → String)
  refine : Bool
  is_sequence : Bool

/-- `Pattern.clean`: remove all substrings that should be ignored. -/
def Pattern.clean (p : Pattern) (s : String) : String :=
  match p.ignore with
  | none => s
  | some f => f s

/-- `Pattern.sub`: clean, then apply each substituter in order. -/
def Pattern.sub (p : Pattern) (s : String) : String :=
  p.substituters.foldl (fun acc sb => sb.1 acc) (p.clean s)

/-- `Pattern.is_format_significant`: whether the format still contains any
substituter's filler literal. -/
def Pattern.is_format_significant (p : Pattern) (fmt : String) : Bool :=
  p.substituters.any (fun sb => hasSub fmt sb.2)

/-- One per-(column, pattern) finding: the non-empty dictionary returned by
`_detect_per_column_and_pattern` (the ratio is kept as a rational rather
than the source's percent-formatted string). -/
structure Finding where
  ratio : ℚ
  common_formats : List String
  common_examples : List String
  rare_values : List String
deriving DecidableEq, Repr

/-- `column[patterned_column.isin(rare_formats)]` followed by
`rare_values[~rare_values.isin(exclude_samples)]`. -/
def rareValuesOf (column : List String) (p : Pattern) (rareFormats : List String)
    (exclude_samples : List String) : List String :=
  (column.filter (fun v => decide (p.sub v ∈ rareFormats))).filter
    (fun v => decide (v ∉ exclude_samples))

/-- The partition step of `_detect_per_column_and_pattern`: skeletonize the
column, rank skeleton frequencies, and split rare from common formats. -/
def patternPartition (column : List String) (p : Pattern) (t : ℚ) :
    ℚ × List String × List String :=
  get_rare_vs_common_values (valueCounts (column.map (fun v => p.sub v))) t

/-- `column[patterned_column == common_format].values[0]`: the first raw
value whose skeleton is `fmt`; Python's `.values[0]` raises `IndexError` on
an empty selection. -/
def firstWithFormat (column : List String) (p : Pattern) (fmt : String) :
    Except PyErr String :=
  match (column.filter (fun v => decide (p.sub v = fmt))).head? with
  | some x => Except.ok x
  | none => Except.error PyErr.indexError

/-- The `pattern.refine is True` loop of `_detect_per_column_and_pattern`:
refine each common format against the cleaned raw samples of that format,
using the first substituter's filler (`pattern.substituters[0][1]`, an
`IndexError` when there is none). -/
def refineAll (column : List String) (p : Pattern) (formats : List String) :
    Except PyErr (List String) :=
  match p.substituters.head? with
  | none => Except.error PyErr.indexError
  | some sb0 =>
    formats.mapM (fun fmt =>
      refine_formats fmt sb0.2
        ((column.filter (fun v => decide (p.sub v = fmt))).map (fun v => p.clean v))
        p.is_sequence)

/-- `_detect_per_column_and_pattern`: `ok none` embeds the empty dictionary
returned when nothing is found; `error` embeds an uncaught Python
exception. -/
def detect_per_column_and_pattern (column : List String) (p : Pattern) (t : ℚ)
    (exclude_samples : List String) : Except PyErr (Option Finding) :=
  if (patternPartition column p t).1 = 0 then Except.ok none
  else if ((patternPartition column p t).2.2.any
      (fun f => p.is_format_significant f)) = false then Except.ok none
  else if rareValuesOf column p (patternPartition column p t).2.1 exclude_samples = [] then
    Except.ok none
  else
    match (patternPartition column p t).2.2.mapM (fun f => firstWithFormat column p f) with
    | Except.error e => Except.error e
    | Except.ok examples =>
      match (if p.refine then refineAll column p (patternPartition column p t).2.2
             else Except.ok (patternPartition column p t).2.2) with
      | Except.error e => Except.error e
      | Except.ok finalFormats =>
        Except.ok (some
          { ratio := (patternPartition column p t).1
            common_formats := finalFormats
            common_examples := examples
            rare_values := dedupFirst (rareValuesOf column p
              (patternPartition column p t).2.1 exclude_samples) })

/-- The pattern loop of `_detect_per_column`, threading the
`formats_to_ignore` accumulator: a pattern with a finding extends the
accumulator with its rare values when `pattern_match_method == 'first'`.
The result keeps, in pattern order, the pattern names paired with their
non-empty findings (the all-NaN columns dropped by
`pd.DataFrame(...).dropna(axis=1, how='all')` are the empty findings). -/
def detect_per_column_go (column : List String) (t : ℚ) (mode : String) :
    List Pattern → List String → Except PyErr (List (String × Finding))
  | [], _ => Except.ok []
  | p :: ps, formats_to_ignore =>
    match detect_per_column_and_pattern column p t formats_to_ignore with
    | Except.error e => Except.error e
    | Except.ok none => detect_per_column_go column t mode ps formats_to_ignore
    | Except.ok (some f) =>
      match detect_per_column_go column t mode ps
          (if mode = "first" then formats_to_ignore ++ f.rare_values
           else formats_to_ignore) with
      | Except.error e => Except.error e
      | Except.ok rest => Except.ok ((p.name, f) :: rest)

/-- `_detect_per_column`: scan the pattern list with an initially empty
`formats_to_ignore` accumulator. -/
def detect_per_column (column : List String) (patterns : List Pattern) (t : ℚ)
    (mode : String) : Except PyErr (List (String × Finding)) :=
  detect_per_column_go column t mode patterns []

/-- The dictionary comprehension `{column_name: _detect_per_column(...) for
column_name in column_names}` of `rare_format_detection`: the columns are
analyzed in order, and an exception raised for any column propagates. -/
def analyzeColumns (patterns : List Pattern) (t : ℚ) (mode : String) :
    List (String × List String) → Except PyErr (List (String × List (String × Finding)))
  | [] => Except.ok []
  | c :: cs =>
    match detect_per_column c.2 patterns t mode with
    | Except.error e => Except.error e
    | Except.ok r =>
      match analyzeColumns patterns t mode cs with
      | Except.error e => Except.error e
      | Except.ok rest => Except.ok ((c.1, r) :: rest)

/-- `rare_format_detection`: validate `pattern_match_method`, then analyze
every selected column.  The dataset is embedded as the selected named
columns, each a list of string values (`column.astype(str)` already
applied). -/
def rare_format_detection (columns : List (String × List String)) (patterns : List Pattern)
    (rarity_threshold : ℚ) (pattern_match_method : String) :
    Except PyErr (List (String × List (String × Finding))) :=
  if pattern_match_method ≠ "first" ∧ pattern_match_method ≠ "all" then
    Except.error PyErr.mlchecksValueError
  else analyzeColumns patterns rarity_threshold pattern_match_method columns

/-- The digit/letter pattern of the spec's Scenario B: substitute every
digit by `0` and every capital letter by `X`, ignoring `-`. -/
def scenarioPattern : Pattern where
  name := "digits and letters"
  substituters :=
    [(fun s => (⟨s.data.map (fun c => if c.isDigit then '0' else c)⟩ : String), "0"),
     (fun s => (⟨s.data.map (fun c => if c.isUpper then 'X' else c)⟩ : String), "X")]
  ignore := some (fun s => (⟨s.data.filter (fun c => c ≠ '-')⟩ : String))
  refine := false
  is_sequence := false

/-- A `Pattern` whose rule list is empty: `Pattern.__init__` accepts it
without any validation. -/
def emptyRulesPattern : Pattern where
  name := "empty"
  substituters := []
  ignore := none
  refine := false
  is_sequence := false

example :
    ["AB-001", "AB-002", "AB-003", "XY-1"].map (fun v => scenarioPattern.sub v)
      = ["XX000", "XX000", "XX000", "XX0"] := by decide

example :
    valueCounts (["AB-001", "AB-002", "AB-003", "XY-1"].map (fun v => scenarioPattern.sub v))
      = [("XX000", 3), ("XX0", 1)] := by decide

/-- The sharp-drop condition at adjacent pair `j` of a count list:
`curr_count < threshold * prev_count`. -/
def dropCond (t : ℚ) (cs : List Nat) (j : Nat) : Prop :=
  ((cs.getD (j + 1) 0 : Nat) : ℚ) < t * ((cs.getD j 0 : Nat) : ℚ)

instance (t : ℚ) (cs : List Nat) (j : Nat) : Decidable (dropCond t cs j) := by
  unfold dropCond; infer_instance

theorem dropCond_cons_succ (t : ℚ) (a : Nat) (cs : List Nat) (j : Nat) :
    dropCond t (a :: cs) (j + 1) ↔ dropCond t cs j := by
  simp [dropCond, List.getD_cons_succ]

theorem dropCond_cons_cons_zero (t : ℚ) (a b : Nat) (cs : List Nat) :
    dropCond t (a :: b :: cs) 0 ↔ (b : ℚ) < t * (a : ℚ) := by
  simp [dropCond]

theorem findDropAux_eq_some_iff (t : ℚ) :
    ∀ (cs : List Nat) (prev : Nat) (i : Nat),
      findDropAux t prev cs = some i ↔
        (i < cs.length ∧ dropCond t (prev :: cs) i ∧
          ∀ j, j < i → ¬ dropCond t (prev :: cs) j) := by
  intro cs
  induction cs with
  | nil => intro prev i; simp [findDropAux]
  | cons c rest ih =>
    intro prev i
    rw [findDropAux]
    by_cases h : (c : ℚ) < t * (prev : ℚ)
    · rw [if_pos h]
      cases i with
      | zero =>
        simp only [Option.some.injEq]
        constructor
        · intro _
          exact ⟨Nat.succ_pos _, (dropCond_cons_cons_zero t prev c rest).mpr h,
            fun j hj => absurd hj (Nat.not_lt_zero j)⟩
        · intro _; trivial
      | succ k =>
        simp only [Option.some.injEq]
        constructor
        · intro hk; exact absurd hk (by omega)
        · rintro ⟨_, _, hall⟩
          exact absurd ((dropCond_cons_cons_zero t prev c rest).mpr h)
            (hall 0 (Nat.succ_pos k))
    · rw [if_neg h]
      cases i with
      | zero =>
        constructor
        · intro hmap
          rcases Option.map_eq_some'.mp hmap with ⟨a, _, ha⟩
          exact absurd ha (by omega)
        · rintro ⟨_, hc, _⟩
          exact absurd ((dropCond_cons_cons_zero t prev c rest).mp hc) h
      | succ k =>
        rw [Option.map_eq_some']
        constructor
        · rintro ⟨a, hfa, ha⟩
          have hak : a = k := by omega
          rw [hak] at hfa
          rcases (ih c k).mp hfa with ⟨h1, h2, h3⟩
          refine ⟨Nat.succ_lt_succ h1, (dropCond_cons_succ t prev (c :: rest) k).mpr h2, ?_⟩
          intro j hj
          cases j with
          | zero =>
            intro hc0
            exact h ((dropCond_cons_cons_zero t prev c rest).mp hc0)
          | succ j' =>
            intro hcj
            exact h3 j' (by omega) ((dropCond_cons_succ t prev (c :: rest) j').mp hcj)
        · rintro ⟨h1, h2, h3⟩
          refine ⟨k, (ih c k).mpr
            ⟨by simp only [List.length_cons] at h1; omega,
              (dropCond_cons_succ t prev (c :: rest) k).mp h2, ?_⟩, rfl⟩
          intro j hj
          intro hcj
          exact h3 (j + 1) (by omega) ((dropCond_cons_succ t prev (c :: rest) j).mpr hcj)

/-- The scan of `get_rare_vs_common_values` breaks at `i` exactly when `i`
is the first adjacent pair of the ranking whose counts drop sharply. -/
theorem findDrop_eq_some_iff (t : ℚ) (cs : List Nat) (i : Nat) :
    findDrop t cs = some i ↔
      (i + 1 < cs.length ∧ dropCond t cs i ∧ ∀ j, j < i → ¬ dropCond t cs j) := by
  cases cs with
  | nil => simp [findDrop]
  | cons c rest =>
    rw [findDrop, findDropAux_eq_some_iff]
    simp [Nat.succ_lt_succ_iff]

theorem findDrop_eq_none_of_noDrop (t : ℚ) (cs : List Nat)
    (h : ∀ j, j + 1 < cs.length → ¬ dropCond t cs j) :
    findDrop t cs = none := by
  cases hfd : findDrop t cs with
  | none => rfl
  | some i =>
    rcases (findDrop_eq_some_iff t cs i).mp hfd with ⟨h1, h2, _⟩
    exact absurd h2 (h i h1)

theorem get_eq_sentinel_of_short (vc : List (String × Nat)) (t : ℚ)
    (h : (nonEmptyEntries vc).length ≤ 1) :
    get_rare_vs_common_values vc t = (0, [], []) := by
  rw [get_rare_vs_common_values, if_pos h]

theorem get_eq_sentinel_of_none (vc : List (String × Nat)) (t : ℚ)
    (h : findDrop t ((nonEmptyEntries vc).map (fun e => e.2)) = none) :
    get_rare_vs_common_values vc t = (0, [], []) := by
  rw [get_rare_vs_common_values]
  split
  · rfl
  · rw [h]

theorem get_eq_of_some (vc : List (String × Nat)) (t : ℚ) (i : Nat)
    (hlen : ¬ (nonEmptyEntries vc).length ≤ 1)
    (hfd : findDrop t ((nonEmptyEntries vc).map (fun e => e.2)) = some i) :
    get_rare_vs_common_values vc t =
      (sumCounts ((nonEmptyEntries vc).drop (i + 1)) /
          sumCounts ((nonEmptyEntries vc).take (i + 1)),
        ((nonEmptyEntries vc).drop (i + 1)).map (fun e => e.1),
        ((nonEmptyEntries vc).take (i + 1)).map (fun e => e.1)) := by
  rw [get_rare_vs_common_values, if_neg hlen, hfd]

theorem take_mem_mono {α : Type} {m n : Nat} (h : m ≤ n) {l : List α} {a : α}
    (ha : a ∈ l.take m) : a ∈ l.take n := by
  have heq : l.take m = (l.take n).take m := by rw [List.take_take, Nat.min_eq_left h]
  rw [heq] at ha
  exact List.take_subset m (l.take n) ha

theorem drop_mem_mono {α : Type} {m n : Nat} (h : m ≤ n) {l : List α} {a : α}
    (ha : a ∈ l.drop n) : a ∈ l.drop m := by
  have heq : l.drop n = (l.drop m).drop (n - m) := by
    rw [List.drop_drop]
    congr 1
    omega
  rw [heq] at ha
  exact List.drop_subset _ _ ha

theorem length_take_add_length_drop {α : Type} (l : List α) (k : Nat) :
    (l.take k).length + (l.drop k).length = l.length := by
  rw [← List.length_append, List.take_append_drop]

theorem sumCounts_pos (l : List (String × Nat)) (hne : l ≠ [])
    (hpos : ∀ e ∈ l, 0 < e.2) : 0 < sumCounts l := by
  cases l with
  | nil => exact absurd rfl hne
  | cons e rest =>
    have h0 : 0 < e.2 := hpos e (List.mem_cons_self e rest)
    unfold sumCounts
    rw [List.map_cons, List.sum_cons]
    have hlt : 0 < e.2 + (rest.map (fun x => x.2)).sum :=
      Nat.lt_of_lt_of_le h0 (Nat.le_add_right _ _)
    exact_mod_cast hlt

/-- A run with a non-empty rare list must have taken the `some i` branch. -/
theorem rare_nonempty_elim (vc : List (String × Nat)) (t : ℚ)
    (h : (get_rare_vs_common_values vc t).2.1 ≠ []) :
    ∃ i, ¬ (nonEmptyEntries vc).length ≤ 1 ∧
      findDrop t ((nonEmptyEntries vc).map (fun e => e.2)) = some i := by
  by_cases hlen : (nonEmptyEntries vc).length ≤ 1
  · rw [get_eq_sentinel_of_short vc t hlen] at h
    exact absurd rfl h
  · cases hfd : findDrop t ((nonEmptyEntries vc).map (fun e => e.2)) with
    | none =>
      rw [get_eq_sentinel_of_none vc t hfd] at h
      exact absurd rfl h
    | some i => exact ⟨i, hlen, rfl⟩

/-- C1: For every frequency distribution with at least 2 distinct items left
after removing the empty-string item, `get_rare_vs_common_values` scans
adjacent pairs of the descending ranking and, at the first pair `i` whose
counts satisfy `current < threshold * previous`, returns the items up to and
including position `i` as common, the items from position `i + 1` onward as
rare, and the ratio `sum(rare counts) / sum(common counts)`; when no such
pair exists, or fewer than 2 distinct items remain, it returns the
no-partition sentinel `(0, [], [])`. -/
theorem claim_partition_boundary (value_counts : List (String × Nat)) (t : ℚ) :
    ((nonEmptyEntries value_counts).length ≤ 1 →
      get_rare_vs_common_values value_counts t = (0, [], [])) ∧
    (∀ i : Nat, i + 1 < (nonEmptyEntries value_counts).length →
      dropCond t ((nonEmptyEntries value_counts).map (fun e => e.2)) i →
      (∀ j ∈ List.range i,
        ¬ dropCond t ((nonEmptyEntries value_counts).map (fun e => e.2)) j) →
      get_rare_vs_common_values value_counts t =
        (sumCounts ((nonEmptyEntries value_counts).drop (i + 1)) /
            sumCounts ((nonEmptyEntries value_counts).take (i + 1)),
          ((nonEmptyEntries value_counts).drop (i + 1)).map (fun e => e.1),
          ((nonEmptyEntries value_counts).take (i + 1)).map (fun e => e.1))) ∧
    (2 ≤ (nonEmptyEntries value_counts).length →
      (∀ j ∈ List.range ((nonEmptyEntries value_counts).length - 1),
        ¬ dropCond t ((nonEmptyEntries value_counts).map (fun e => e.2)) j) →
      get_rare_vs_common_values value_counts t = (0, [], [])) := by
  refine ⟨fun h => get_eq_sentinel_of_short value_counts t h, ?_, ?_⟩
  · intro i h1 h2 h3
    have hlen : ¬ (nonEmptyEntries value_counts).length ≤ 1 := by omega
    have hfd : findDrop t ((nonEmptyEntries value_counts).map (fun e => e.2)) = some i := by
      rw [findDrop_eq_some_iff]
      refine ⟨by rw [List.length_map]; exact h1, h2, ?_⟩
      intro j hj
      exact h3 j (List.mem_range.mpr hj)
    exact get_eq_of_some value_counts t i hlen hfd
  · intro hlen2 hnone
    apply get_eq_sentinel_of_none
    apply findDrop_eq_none_of_noDrop
    intro j hj
    rw [List.length_map] at hj
    exact hnone j (List.mem_range.mpr (by omega))

/-- Witness for C1 at the ranking a↦10, b↦7, c↦1 with threshold 1/4: the
first sharp drop is between 7 and 1, so common = [a, b], rare = [c],
ratio = 1/17. -/
theorem claim_partition_boundary_witness :
    get_rare_vs_common_values [("a", 10), ("b", 7), ("c", 1)] (1/4)
      = (1/17, ["c"], ["a", "b"]) := by
  have hcs : (nonEmptyEntries [("a", 10), ("b", 7), ("c", 1)]).map (fun e => e.2)
      = [10, 7, 1] := by decide
  have hmain := (claim_partition_boundary [("a", 10), ("b", 7), ("c", 1)] (1/4)).2.1 1
    (by decide)
    (by rw [hcs]; norm_num [dropCond])
    (by
      intro j hj
      simp only [List.mem_range] at hj
      have hj0 : j = 0 := by omega
      subst hj0
      rw [hcs]
      norm_num [dropCond])
  rw [hmain]
  have hne : nonEmptyEntries [("a", 10), ("b", 7), ("c", 1)]
      = [("a", 10), ("b", 7), ("c", 1)] := by decide
  rw [hne]
  norm_num [sumCounts]

/-- C2 counterexample: the ranking a↦100, ""↦5, b↦1 at threshold 1/20 yields
the non-empty partition common = [a], rare = [b], yet the distinct input
item `""` (the empty string) appears in neither list, so the union of
common and rare does not equal the distinct input set. -/
theorem claim_union_cex :
    (get_rare_vs_common_values [("a", 100), ("", 5), ("b", 1)] (1/20)).2.1 ≠ [] ∧
    "" ∈ [("a", 100), ("", 5), ("b", 1)].map (fun e => e.1) ∧
    "" ∉ (get_rare_vs_common_values [("a", 100), ("", 5), ("b", 1)] (1/20)).2.1 ∧
    "" ∉ (get_rare_vs_common_values [("a", 100), ("", 5), ("b", 1)] (1/20)).2.2 := by
  have hg : get_rare_vs_common_values [("a", 100), ("", 5), ("b", 1)] (1/20)
      = (1/100, ["b"], ["a"]) := by
    have h1 : nonEmptyEntries [("a", 100), ("", 5), ("b", 1)]
        = [("a", 100), ("b", 1)] := by decide
    rw [get_rare_vs_common_values, h1]
    norm_num [findDrop, findDropAux, sumCounts]
  rw [hg]
  refine ⟨by decide, by decide, by decide, by decide⟩

/-- C2 amended: for every frequency distribution with distinct items, if the
partition operation returns a non-empty result, the concatenation of its
common and rare lists equals the distinct input items *minus the
empty-string item* (every remaining distinct item appears in exactly one of
the two lists), and the two lists are disjoint. -/
theorem claim_union_amended (value_counts : List (String × Nat)) (t : ℚ)
    (hnd : (value_counts.map (fun e => e.1)).Nodup)
    (h : (get_rare_vs_common_values value_counts t).2.1 ≠ []) :
    (get_rare_vs_common_values value_counts t).2.2 ++
        (get_rare_vs_common_values value_counts t).2.1
      = (nonEmptyEntries value_counts).map (fun e => e.1) ∧
    ∀ v ∈ (get_rare_vs_common_values value_counts t).2.2,
      v ∉ (get_rare_vs_common_values value_counts t).2.1 := by
  rcases rare_nonempty_elim value_counts t h with ⟨i, hlen, hfd⟩
  have hg := get_eq_of_some value_counts t i hlen hfd
  rw [hg]
  dsimp only
  have hsplit : ((nonEmptyEntries value_counts).take (i + 1)).map (fun e => e.1) ++
      ((nonEmptyEntries value_counts).drop (i + 1)).map (fun e => e.1)
      = (nonEmptyEntries value_counts).map (fun e => e.1) := by
    rw [← List.map_append, List.take_append_drop]
  constructor
  · exact hsplit
  · have hnd2 : ((nonEmptyEntries value_counts).map (fun e => e.1)).Nodup := by
      have hsub : List.Sublist ((nonEmptyEntries value_counts).map (fun e => e.1))
          (value_counts.map (fun e => e.1)) :=
        List.Sublist.map _ (List.filter_sublist value_counts)
      exact hnd.sublist hsub
    rw [← hsplit] at hnd2
    rcases List.nodup_append.mp hnd2 with ⟨_, _, hdisj⟩
    intro v hv hv'
    exact hdisj hv hv'

/-- Witness for the amended C2 at the ranking a↦100, ""↦5, b↦1 with
threshold 1/20: common ++ rare = [a, b], the distinct non-empty items. -/
theorem claim_union_amended_witness :
    (get_rare_vs_common_values [("a", 100), ("", 5), ("b", 1)] (1/20)).2.2 ++
        (get_rare_vs_common_values [("a", 100), ("", 5), ("b", 1)] (1/20)).2.1
      = (nonEmptyEntries [("a", 100), ("", 5), ("b", 1)]).map (fun e => e.1) := by
  have hg : get_rare_vs_common_values [("a", 100), ("", 5), ("b", 1)] (1/20)
      = (1/100, ["b"], ["a"]) := by
    have h1 : nonEmptyEntries [("a", 100), ("", 5), ("b", 1)]
        = [("a", 100), ("b", 1)] := by decide
    rw [get_rare_vs_common_values, h1]
    norm_num [findDrop, findDropAux, sumCounts]
  exact (claim_union_amended [("a", 100), ("", 5), ("b", 1)] (1/20) (by decide)
    (by rw [hg]; decide)).1

/-- C3 counterexample: on the ranking a↦3, b↦2, threshold 1/2 finds no sharp
drop (the sentinel accounts for 0 items) while the larger threshold 9/10
finds one (2 items accounted), so raising the threshold changes the total
number of distinct items accounted for. -/
theorem claim_threshold_mono_cex :
    (1/2 : ℚ) ≤ 9/10 ∧
    get_rare_vs_common_values [("a", 3), ("b", 2)] (1/2) = (0, [], []) ∧
    get_rare_vs_common_values [("a", 3), ("b", 2)] (9/10) = (2/3, ["b"], ["a"]) ∧
    (get_rare_vs_common_values [("a", 3), ("b", 2)] (1/2)).2.2.length +
        (get_rare_vs_common_values [("a", 3), ("b", 2)] (1/2)).2.1.length ≠
      (get_rare_vs_common_values [("a", 3), ("b", 2)] (9/10)).2.2.length +
        (get_rare_vs_common_values [("a", 3), ("b", 2)] (9/10)).2.1.length := by
  have h1 : nonEmptyEntries [("a", 3), ("b", 2)] = [("a", 3), ("b", 2)] := by decide
  have hga : get_rare_vs_common_values [("a", 3), ("b", 2)] (1/2) = (0, [], []) := by
    rw [get_rare_vs_common_values, h1]
    norm_num [findDrop, findDropAux, sumCounts]
  have hgb : get_rare_vs_common_values [("a", 3), ("b", 2)] (9/10)
      = (2/3, ["b"], ["a"]) := by
    rw [get_rare_vs_common_values, h1]
    norm_num [findDrop, findDropAux, sumCounts]
  refine ⟨by norm_num, hga, hgb, ?_⟩
  rw [hga, hgb]
  decide

/-- C3 amended: for a fixed frequency distribution and thresholds
`t1 ≤ t2`, provided the run with `t1` already finds a partition, running
with `t2` can only move items from the common list to the rare list (common
shrinks to a subset, rare grows to a superset) and never changes the total
number of distinct items accounted for.  (When `t1` yields the sentinel,
`t2` may yield a partition, changing the accounted total from zero.) -/
theorem claim_threshold_mono_amended (value_counts : List (String × Nat)) (t1 t2 : ℚ)
    (hle : t1 ≤ t2) (h : (get_rare_vs_common_values value_counts t1).2.1 ≠ []) :
    (∀ v ∈ (get_rare_vs_common_values value_counts t2).2.2,
      v ∈ (get_rare_vs_common_values value_counts t1).2.2) ∧
    (∀ v ∈ (get_rare_vs_common_values value_counts t1).2.1,
      v ∈ (get_rare_vs_common_values value_counts t2).2.1) ∧
    (get_rare_vs_common_values value_counts t2).2.2.length +
        (get_rare_vs_common_values value_counts t2).2.1.length =
      (get_rare_vs_common_values value_counts t1).2.2.length +
        (get_rare_vs_common_values value_counts t1).2.1.length := by
  rcases rare_nonempty_elim value_counts t1 h with ⟨i1, hlen, hfd1⟩
  rcases (findDrop_eq_some_iff t1 _ i1).mp hfd1 with ⟨hb1, hc1, _⟩
  have hc2 : dropCond t2 ((nonEmptyEntries value_counts).map (fun e => e.2)) i1 := by
    unfold dropCond at hc1 ⊢
    calc ((((nonEmptyEntries value_counts).map (fun e => e.2)).getD (i1 + 1) 0 : Nat) : ℚ)
        < t1 * ((((nonEmptyEntries value_counts).map (fun e => e.2)).getD i1 0 : Nat) : ℚ) :=
          hc1
      _ ≤ t2 * ((((nonEmptyEntries value_counts).map (fun e => e.2)).getD i1 0 : Nat) : ℚ) :=
          mul_le_mul_of_nonneg_right hle (Nat.cast_nonneg _)
  have hex : ∃ j, j + 1 < ((nonEmptyEntries value_counts).map (fun e => e.2)).length ∧
      dropCond t2 ((nonEmptyEntries value_counts).map (fun e => e.2)) j := ⟨i1, hb1, hc2⟩
  set i2 := Nat.find hex with hi2def
  have hspec := Nat.find_spec hex
  have hi2le : i2 ≤ i1 := Nat.find_min' hex ⟨hb1, hc2⟩
  have hfd2 : findDrop t2 ((nonEmptyEntries value_counts).map (fun e => e.2)) = some i2 := by
    rw [findDrop_eq_some_iff]
    refine ⟨hspec.1, hspec.2, ?_⟩
    intro j hj
    intro hcj
    exact Nat.find_min hex hj ⟨by omega, hcj⟩
  have hga := get_eq_of_some value_counts t1 i1 hlen hfd1
  have hgb := get_eq_of_some value_counts t2 i2 hlen hfd2
  rw [hga, hgb]
  dsimp only
  refine ⟨?_, ?_, ?_⟩
  · intro v hv
    rcases List.mem_map.mp hv with ⟨e, he, hev⟩
    exact List.mem_map.mpr ⟨e, take_mem_mono (Nat.succ_le_succ hi2le) he, hev⟩
  · intro v hv
    rcases List.mem_map.mp hv with ⟨e, he, hev⟩
    exact List.mem_map.mpr ⟨e, drop_mem_mono (Nat.succ_le_succ hi2le) he, hev⟩
  · rw [List.length_map, List.length_map, List.length_map, List.length_map,
      length_take_add_length_drop, length_take_add_length_drop]

/-- Witness for the amended C3 at the ranking a↦10, b↦1 with thresholds
1/2 ≤ 3/4: both runs account for the same two distinct items. -/
theorem claim_threshold_mono_amended_witness :
    (get_rare_vs_common_values [("a", 10), ("b", 1)] (3/4)).2.2.length +
        (get_rare_vs_common_values [("a", 10), ("b", 1)] (3/4)).2.1.length =
      (get_rare_vs_common_values [("a", 10), ("b", 1)] (1/2)).2.2.length +
        (get_rare_vs_common_values [("a", 10), ("b", 1)] (1/2)).2.1.length := by
  have h1 : nonEmptyEntries [("a", 10), ("b", 1)] = [("a", 10), ("b", 1)] := by decide
  have hg1 : get_rare_vs_common_values [("a", 10), ("b", 1)] (1/2)
      = (1/10, ["b"], ["a"]) := by
    rw [get_rare_vs_common_values, h1]
    norm_num [findDrop, findDropAux, sumCounts]
  exact (claim_threshold_mono_amended [("a", 10), ("b", 1)] (1/2) (3/4) (by norm_num)
    (by rw [hg1]; decide)).2.2

/-- C10: for a frequency distribution of positive counts (as `value_counts`
always produces), either the partition operation returns the no-partition
sentinel `(0, [], [])`, or it found a sharp-drop boundary and then both the
common and the rare side are non-empty (so the ratio's denominator sum is
positive and the division well-defined) and the returned ratio is strictly
positive — hence the caller's `ratio == 0` test in
`_detect_per_column_and_pattern` distinguishes exactly the sentinel from a
found partition and never discards a real one. -/
theorem claim_ratio_positive (value_counts : List (String × Nat)) (t : ℚ)
    (hpos : ∀ e ∈ value_counts, 0 < e.2) :
    get_rare_vs_common_values value_counts t = (0, [], []) ∨
    (0 < (get_rare_vs_common_values value_counts t).1 ∧
      (get_rare_vs_common_values value_counts t).2.1 ≠ [] ∧
      (get_rare_vs_common_values value_counts t).2.2 ≠ []) := by
  by_cases hlen : (nonEmptyEntries value_counts).length ≤ 1
  · exact Or.inl (get_eq_sentinel_of_short _ _ hlen)
  · cases hfd : findDrop t ((nonEmptyEntries value_counts).map (fun e => e.2)) with
    | none => exact Or.inl (get_eq_sentinel_of_none _ _ hfd)
    | some i =>
      right
      have hg := get_eq_of_some value_counts t i hlen hfd
      rcases (findDrop_eq_some_iff t _ i).mp hfd with ⟨hb, _, _⟩
      rw [List.length_map] at hb
      have hposNE : ∀ e ∈ nonEmptyEntries value_counts, 0 < e.2 :=
        fun e he => hpos e (List.mem_of_mem_filter he)
      have htake_ne : (nonEmptyEntries value_counts).take (i + 1) ≠ [] := by
        have hl : 0 < ((nonEmptyEntries value_counts).take (i + 1)).length := by
          rw [List.length_take]; omega
        exact List.ne_nil_of_length_pos hl
      have hdrop_ne : (nonEmptyEntries value_counts).drop (i + 1) ≠ [] := by
        have hl : 0 < ((nonEmptyEntries value_counts).drop (i + 1)).length := by
          rw [List.length_drop]; omega
        exact List.ne_nil_of_length_pos hl
      have hsum_take : 0 < sumCounts ((nonEmptyEntries value_counts).take (i + 1)) :=
        sumCounts_pos _ htake_ne (fun e he => hposNE e (List.take_subset _ _ he))
      have hsum_drop : 0 < sumCounts ((nonEmptyEntries value_counts).drop (i + 1)) :=
        sumCounts_pos _ hdrop_ne (fun e he => hposNE e (List.drop_subset _ _ he))
      rw [hg]
      refine ⟨div_pos hsum_drop hsum_take, ?_, ?_⟩
      · simpa using hdrop_ne
      · simpa using htake_ne

/-- Witness for C10 at the ranking u↦8, v↦1 with threshold 1/2. -/
theorem claim_ratio_positive_witness :
    get_rare_vs_common_values [("u", 8), ("v", 1)] (1/2) = (0, [], []) ∨
    (0 < (get_rare_vs_common_values [("u", 8), ("v", 1)] (1/2)).1 ∧
      (get_rare_vs_common_values [("u", 8), ("v", 1)] (1/2)).2.1 ≠ [] ∧
      (get_rare_vs_common_values [("u", 8), ("v", 1)] (1/2)).2.2 ≠ []) :=
  claim_ratio_positive [("u", 8), ("v", 1)] (1/2) (by decide)

/-- C4: refining the skeleton `XXX@XXX.XXX` with sequence filler `XXX`
against the samples foo@gmail.com, bar@gmail.com, baz@gmail.com yields
exactly `XXX@gmail.com`: agreeing filler positions are replaced by the
observed literal, disagreeing ones keep the filler. -/
theorem claim_refine_scenarioC :
    refine_formats "XXX@XXX.XXX" "XXX"
        ["foo@gmail.com", "bar@gmail.com", "baz@gmail.com"] true
      = Except.ok "XXX@gmail.com" := by decide

/-- C9: when the filler literal does not occur in the skeleton,
`_refine_formats` returns the skeleton unchanged, for every sample list and
either filler mode. -/
theorem claim_refine_identity (fmt substr : String) (samples : List String)
    (isSeq : Bool) (h : hasSub fmt substr = false) :
    refine_formats fmt substr samples isSeq = Except.ok fmt := by
  simp [refine_formats, h]

/-- Witness for C9: `X` does not occur in `abc`, so refinement is the
identity there. -/
theorem claim_refine_identity_witness :
    refine_formats "abc" "X" ["q"] true = Except.ok "abc" :=
  claim_refine_identity "abc" "X" ["q"] true (by decide)

/-- C7 counterexample: called with an empty sample sequence while the filler
occurs in the skeleton, `_refine_formats` fails with a raw index error
(`split_examples[0]`), not with a `RefinementError` — no such error class
exists in the source. -/
theorem claim_refine_error_cex :
    refine_formats "XXX@XXX.XXX" "XXX" [] true = Except.error PyErr.indexError ∧
    (Except.error PyErr.indexError : Except PyErr String) ≠
      Except.error PyErr.refinementError := by
  exact ⟨by decide, by decide⟩

/-- C7 amended: with an empty sample sequence while the filler occurs in the
skeleton, the refinement operation fails with a raw index-out-of-range
error (there is no `RefinementError`); likewise, a sample that tokenizes to
a smaller arity than an earlier sample surfaces as an index error when a
filler position past its end is compared (e.g. skeleton `XX`, samples
`ab` and `c` in character mode). -/
theorem claim_refine_error_amended :
    (∀ (fmt substr : String) (isSeq : Bool), hasSub fmt substr = true →
      refine_formats fmt substr [] isSeq = Except.error PyErr.indexError) ∧
    refine_formats "XX" "X" ["ab", "c"] false = Except.error PyErr.indexError := by
  constructor
  · intro fmt substr isSeq h
    cases isSeq <;> simp [refine_formats, h, tokenizedSamples]
  · decide

/-- Witness for the amended C7: the filler `X` occurs in `0X`, and refining
with no samples raises the index error. -/
theorem claim_refine_error_amended_witness :
    refine_formats "0X" "X" [] true = Except.error PyErr.indexError :=
  claim_refine_error_amended.1 "0X" "X" true (by decide)

/-- C5 counterexample: on the column AB-001, AB-002, AB-003, XY-1 under the
digit/letter pattern ignoring `-`, the skeletons are XX000 ×3 and XX0 ×1 as
claimed, but with threshold 0.05 the drop test `1 < 0.05 * 3` is false, so
no sharp drop is detected: the partition returns the sentinel and the
per-pattern analysis returns no finding, contradicting the claimed
common/rare split at that threshold. -/
theorem claim_scenarioB_cex :
    ["AB-001", "AB-002", "AB-003", "XY-1"].map (fun v => scenarioPattern.sub v)
      = ["XX000", "XX000", "XX000", "XX0"] ∧
    get_rare_vs_common_values [("XX000", 3), ("XX0", 1)] (1/20) = (0, [], []) ∧
    detect_per_column_and_pattern ["AB-001", "AB-002", "AB-003", "XY-1"]
        scenarioPattern (1/20) [] = Except.ok none := by
  have hpp : patternPartition ["AB-001", "AB-002", "AB-003", "XY-1"]
      scenarioPattern (1/20) = (0, [], []) := by
    rw [patternPartition]
    have hvc : valueCounts (["AB-001", "AB-002", "AB-003", "XY-1"].map
        (fun v => scenarioPattern.sub v)) = [("XX000", 3), ("XX0", 1)] := by decide
    rw [hvc]
    have h1 : nonEmptyEntries [("XX000", 3), ("XX0", 1)]
        = [("XX000", 3), ("XX0", 1)] := by decide
    rw [get_rare_vs_common_values, h1]
    norm_num [findDrop, findDropAux]
  refine ⟨by decide, ?_, ?_⟩
  · have h1 : nonEmptyEntries [("XX000", 3), ("XX0", 1)]
        = [("XX000", 3), ("XX0", 1)] := by decide
    rw [get_rare_vs_common_values, h1]
    norm_num [findDrop, findDropAux]
  · rw [detect_per_column_and_pattern, hpp]
    simp

/-- C5 amended: the scenario's skeletons and frequencies are as stated
(XX000 ×3, XX0 ×1), but at threshold 0.05 no finding is produced; the
claimed outcome — sharp drop, common = XX000, rare = XX0, ratio 1/3,
rare values XY-1 — holds at any threshold above 1/3, e.g. 0.5. -/
theorem claim_scenarioB_amended :
    ["AB-001", "AB-002", "AB-003", "XY-1"].map (fun v => scenarioPattern.sub v)
      = ["XX000", "XX000", "XX000", "XX0"] ∧
    valueCounts (["AB-001", "AB-002", "AB-003", "XY-1"].map
        (fun v => scenarioPattern.sub v)) = [("XX000", 3), ("XX0", 1)] ∧
    get_rare_vs_common_values [("XX000", 3), ("XX0", 1)] (1/2)
      = (1/3, ["XX0"], ["XX000"]) ∧
    detect_per_column_and_pattern ["AB-001", "AB-002", "AB-003", "XY-1"]
        scenarioPattern (1/2) []
      = Except.ok (some (⟨1/3, ["XX000"], ["AB-001"], ["XY-1"]⟩ : Finding)) := by
  have hg : get_rare_vs_common_values [("XX000", 3), ("XX0", 1)] (1/2)
      = (1/3, ["XX0"], ["XX000"]) := by
    have h1 : nonEmptyEntries [("XX000", 3), ("XX0", 1)]
        = [("XX000", 3), ("XX0", 1)] := by decide
    rw [get_rare_vs_common_values, h1]
    norm_num [findDrop, findDropAux, sumCounts]
  have hpp : patternPartition ["AB-001", "AB-002", "AB-003", "XY-1"]
      scenarioPattern (1/2) = (1/3, ["XX0"], ["XX000"]) := by
    rw [patternPartition]
    have hvc : valueCounts (["AB-001", "AB-002", "AB-003", "XY-1"].map
        (fun v => scenarioPattern.sub v)) = [("XX000", 3), ("XX0", 1)] := by decide
    rw [hvc, hg]
  refine ⟨by decide, by decide, hg, ?_⟩
  rw [detect_per_column_and_pattern, hpp]
  rw [if_neg (by norm_num)]
  rw [if_neg (by decide)]
  rw [if_neg (by decide)]
  have hex : (["XX000"].mapM (fun f =>
      firstWithFormat ["AB-001", "AB-002", "AB-003", "XY-1"] scenarioPattern f))
      = Except.ok ["AB-001"] := by decide
  rw [hex]
  have hrf : scenarioPattern.refine = false := rfl
  rw [hrf]
  simp only [if_false, Bool.false_eq_true]
  have hrv : dedupFirst (rareValuesOf ["AB-001", "AB-002", "AB-003", "XY-1"]
      scenarioPattern ["XX0"] []) = ["XY-1"] := by decide
  rw [hrv]

/-- C8 counterexample: calling the entry point with a `Pattern` whose rule
list is empty and a valid match mode raises no configuration error at all —
the call completes normally (the empty-rule pattern can simply never
produce a significant finding). -/
theorem claim_config_error_cex :
    rare_format_detection [("col", ["a", "b"])] [emptyRulesPattern] (1/20) "first"
      = Except.ok [("col", [])] := by
  have hpp : patternPartition ["a", "b"] emptyRulesPattern (1/20) = (0, [], []) := by
    rw [patternPartition]
    have hvc : valueCounts (["a", "b"].map (fun v => emptyRulesPattern.sub v))
        = [("a", 1), ("b", 1)] := by decide
    rw [hvc]
    have h1 : nonEmptyEntries [("a", 1), ("b", 1)] = [("a", 1), ("b", 1)] := by decide
    rw [get_rare_vs_common_values, h1]
    norm_num [findDrop, findDropAux]
  have hdet : detect_per_column_and_pattern ["a", "b"] emptyRulesPattern (1/20) []
      = Except.ok none := by
    rw [detect_per_column_and_pattern, hpp]
    simp
  have hcol : detect_per_column ["a", "b"] [emptyRulesPattern] (1/20) "first"
      = Except.ok [] := by
    rw [detect_per_column, detect_per_column_go, hdet]
    rfl
  rw [rare_format_detection]
  rw [if_neg (by simp)]
  rw [analyzeColumns]
  rw [show (("col", ["a", "b"]) : String × List String).2 = ["a", "b"] from rfl, hcol]
  rfl

/-- C8 amended: an invalid `pattern_match_method` (neither `first` nor
`all`) raises the configuration error at call entry for every input, before
any per-column work, so the result carries no partial findings; a
`Pattern` with an empty rule list, however, is accepted silently — its
per-pattern analysis always returns no finding instead of raising. -/
theorem claim_config_error_amended :
    (∀ (columns : List (String × List String)) (patterns : List Pattern) (t : ℚ)
        (mode : String), mode ≠ "first" → mode ≠ "all" →
      rare_format_detection columns patterns t mode
        = Except.error PyErr.mlchecksValueError) ∧
    (∀ (column : List String) (p : Pattern) (t : ℚ) (excl : List String),
      p.substituters = [] →
      detect_per_column_and_pattern column p t excl = Except.ok none) := by
  constructor
  · intro columns patterns t mode h1 h2
    rw [rare_format_detection, if_pos ⟨h1, h2⟩]
  · intro column p t excl hsubs
    rw [detect_per_column_and_pattern]
    by_cases hr : (patternPartition column p t).1 = 0
    · rw [if_pos hr]
    · rw [if_neg hr]
      have hB : ((patternPartition column p t).2.2.any
          (fun f => p.is_format_significant f)) = false := by
        simp [Pattern.is_format_significant, hsubs]
      rw [if_pos hB]

/-- Witness for the amended C8: the mode `neither` is rejected eagerly, and
the empty-rule pattern yields no finding without error. -/
theorem claim_config_error_amended_witness :
    rare_format_detection [] [] 1 "neither" = Except.error PyErr.mlchecksValueError ∧
    detect_per_column_and_pattern [] emptyRulesPattern 1 [] = Except.ok none :=
  ⟨claim_config_error_amended.1 [] [] 1 "neither" (by decide) (by decide),
    claim_config_error_amended.2 [] emptyRulesPattern 1 [] rfl⟩

theorem mem_dedupFirstAux (x : String) :
    ∀ (l seen : List String), x ∈ dedupFirstAux seen l → x ∈ l := by
  intro l
  induction l with
  | nil => intro seen h; simp [dedupFirstAux] at h
  | cons v rest ih =>
    intro seen h
    rw [dedupFirstAux] at h
    by_cases hv : v ∈ seen
    · rw [if_pos hv] at h
      exact List.mem_cons_of_mem v (ih seen h)
    · rw [if_neg hv] at h
      rcases List.mem_cons.mp h with h1 | h2
      · exact h1 ▸ List.mem_cons_self v rest
      · exact List.mem_cons_of_mem v (ih (v :: seen) h2)

theorem mem_dedupFirst (x : String) (l : List String) (h : x ∈ dedupFirst l) : x ∈ l :=
  mem_dedupFirstAux x l [] h

/-- Rare values are filtered against the exclusion set before reporting. -/
theorem rareValuesOf_not_excluded (column : List String) (p : Pattern)
    (rareFormats excl : List String) (v : String)
    (hv : v ∈ rareValuesOf column p rareFormats excl) : v ∉ excl := by
  unfold rareValuesOf at hv
  have h2 := (List.mem_filter.mp hv).2
  simpa using h2

/-- A finding produced under exclusion set `excl` reports no value of
`excl` among its rare values. -/
theorem detect_some_not_excluded (column : List String) (p : Pattern) (t : ℚ)
    (excl : List String) (f : Finding)
    (h : detect_per_column_and_pattern column p t excl = Except.ok (some f)) :
    ∀ v ∈ f.rare_values, v ∉ excl := by
  intro v hv
  rw [detect_per_column_and_pattern] at h
  split at h
  · simp at h
  · split at h
    · simp at h
    · split at h
      · simp at h
      · split at h
        · simp at h
        · split at h
          · simp at h
          · simp only [Except.ok.injEq, Option.some.injEq] at h
            rw [← h] at hv
            simp only at hv
            exact rareValuesOf_not_excluded column p
              (patternPartition column p t).2.1 excl v (mem_dedupFirst v _ hv)

/-- Invariant of the `_detect_per_column` pattern loop in first-match mode:
every reported finding's rare values avoid the incoming exclusion set, and
the rare-value lists of the reported findings are pairwise disjoint. -/
theorem detect_go_first_invariant (column : List String) (t : ℚ) :
    ∀ (ps : List Pattern) (excl : List String) (res : List (String × Finding)),
      detect_per_column_go column t "first" ps excl = Except.ok res →
      ((∀ entry ∈ res, ∀ v ∈ entry.2.rare_values, v ∉ excl) ∧
        List.Pairwise (fun a b => ∀ v ∈ a.2.rare_values, v ∉ b.2.rare_values) res) := by
  intro ps
  induction ps with
  | nil =>
    intro excl res h
    rw [detect_per_column_go] at h
    simp only [Except.ok.injEq] at h
    subst h
    exact ⟨by simp, List.Pairwise.nil⟩
  | cons p ps ih =>
    intro excl res h
    rw [detect_per_column_go] at h
    cases hd : detect_per_column_and_pattern column p t excl with
    | error e => rw [hd] at h; simp at h
    | ok o =>
      rw [hd] at h
      cases o with
      | none => exact ih excl res h
      | some f =>
        have h2 : (match detect_per_column_go column t "first" ps
              (excl ++ f.rare_values) with
            | Except.error e => Except.error e
            | Except.ok rest => Except.ok ((p.name, f) :: rest))
            = Except.ok res := h
        clear h
        cases hrest : detect_per_column_go column t "first" ps (excl ++ f.rare_values) with
        | error e => rw [hrest] at h2; simp at h2
        | ok rest =>
          rw [hrest] at h2
          simp only [Except.ok.injEq] at h2
          subst h2
          rcases ih (excl ++ f.rare_values) rest hrest with ⟨hmem, hpw⟩
          constructor
          · intro entry hent v hv
            rcases List.mem_cons.mp hent with he | he
            · rw [he] at hv
              exact detect_some_not_excluded column p t excl f hd v hv
            · intro hvexcl
              exact hmem entry he v hv (List.mem_append_left _ hvexcl)
          · refine List.Pairwise.cons ?_ hpw
            intro b hb v hvf hvb
            exact hmem b hb v hvb (List.mem_append_right _ hvf)

/-- C6: in first-match mode, the rare-value lists reported by the patterns
of one column are pairwise disjoint — no raw value is claimed by more than
one pattern's finding, because each pattern's rare values are filtered
against the values claimed by earlier patterns and each finding extends the
exclusion set with its rare values. -/
theorem claim_first_match_exclusive (column : List String) (patterns : List Pattern)
    (t : ℚ) (res : List (String × Finding))
    (h : detect_per_column column patterns t "first" = Except.ok res) :
    List.Pairwise (fun a b => ∀ v ∈ a.2.rare_values, v ∉ b.2.rare_values) res := by
  rw [detect_per_column] at h
  exact (detect_go_first_invariant column t patterns [] res h).2

/-- Witness for C6: the Scenario B column analysed with the single
digit/letter pattern at threshold 1/2 yields one finding, and the
exclusivity property holds of the result. -/
theorem claim_first_match_exclusive_witness :
    List.Pairwise (fun a b => ∀ v ∈ a.2.rare_values, v ∉ b.2.rare_values)
      [("digits and letters", (⟨1/3, ["XX000"], ["AB-001"], ["XY-1"]⟩ : Finding))] := by
  apply claim_first_match_exclusive ["AB-001", "AB-002", "AB-003", "XY-1"]
    [scenarioPattern] (1/2)
  have hpp : patternPartition ["AB-001", "AB-002", "AB-003", "XY-1"]
      scenarioPattern (1/2) = (1/3, ["XX0"], ["XX000"]) := by
    rw [patternPartition]
    have hvc : valueCounts (["AB-001", "AB-002", "AB-003", "XY-1"].map
        (fun v => scenarioPattern.sub v)) = [("XX000", 3), ("XX0", 1)] := by decide
    rw [hvc]
    have h1 : nonEmptyEntries [("XX000", 3), ("XX0", 1)]
        = [("XX000", 3), ("XX0", 1)] := by decide
    rw [get_rare_vs_common_values, h1]
    norm_num [findDrop, findDropAux, sumCounts]
  have hdet : detect_per_column_and_pattern ["AB-001", "AB-002", "AB-003", "XY-1"]
      scenarioPattern (1/2) []
      = Except.ok (some (⟨1/3, ["XX000"], ["AB-001"], ["XY-1"]⟩ : Finding)) := by
    rw [detect_per_column_and_pattern, hpp]
    rw [if_neg (by norm_num)]
    rw [if_neg (by decide)]
    rw [if_neg (by decide)]
    have hex : (["XX000"].mapM (fun f =>
        firstWithFormat ["AB-001", "AB-002", "AB-003", "XY-1"] scenarioPattern f))
        = Except.ok ["AB-001"] := by decide
    rw [hex]
    have hrf : scenarioPattern.refine = false := rfl
    rw [hrf]
    simp only [if_false, Bool.false_eq_true]
    have hrv : dedupFirst (rareValuesOf ["AB-001", "AB-002", "AB-003", "XY-1"]
        scenarioPattern ["XX0"] []) = ["XY-1"] := by decide
    rw [hrv]
  rw [detect_per_column, detect_per_column_go, hdet]
  rfl
